import Mathlib

/-!
Verification of the schema-select value validation and coercion engine.

The JavaScript runtime values handled by the engine are modelled by the
inductive type JSValue below. JS numbers are modelled as exact rationals
(the engine only manipulates numbers through casts, rounding and
remainder, and every number appearing in the verified statements is
exactly representable); NaN is modelled by returning Option.none from the
numeric cast, and the infinities are outside the model. Arrays and
objects carry a reference tag so that the strict-equality operator on
objects (reference identity in JS) can be expressed; two values with the
same tag are understood to denote the same heap object.
-/

inductive JSValue where
  | undef : JSValue
  | null : JSValue
  | bool (b : Bool) : JSValue
  | num (q : ℚ) : JSValue
  | str (s : String) : JSValue
  | arr (ref : ℕ) (items : List JSValue) : JSValue
  | obj (ref : ℕ) (fields : List (String × JSValue)) : JSValue
deriving Repr

mutual

/-- Structural size of a value, used to supply fuel to the recursive
functions below (the derived SizeOf instance is not executable for this
nested inductive). -/
def jsSize : JSValue → ℕ
  | JSValue.arr _ items => 1 + jsSizeList items
  | JSValue.obj _ fields => 1 + jsSizeFields fields
  | _ => 1

def jsSizeList : List JSValue → ℕ
  | [] => 0
  | v :: rest => 1 + jsSize v + jsSizeList rest

def jsSizeFields : List (String × JSValue) → ℕ
  | [] => 0
  | f :: rest => 1 + jsSize f.2 + jsSizeFields rest

end

/-- Result of the JS typeof operator, as a string. -/
def typeofStr : JSValue → String
  | JSValue.undef => "undefined"
  | JSValue.null => "object"
  | JSValue.bool _ => "boolean"
  | JSValue.num _ => "number"
  | JSValue.str _ => "string"
  | JSValue.arr _ _ => "object"
  | JSValue.obj _ _ => "object"

/-- Loose equality with null, the JS test v == null. -/
def isNullish : JSValue → Bool
  | JSValue.undef => true
  | JSValue.null => true
  | _ => false

/-- The JS test v === null. -/
def isNullV : JSValue → Bool
  | JSValue.null => true
  | _ => false

/-- Array.isArray as a Bool. -/
def isJSArrayB : JSValue → Bool
  | JSValue.arr _ _ => true
  | _ => false

/-- JS truthiness, the Boolean(v) cast. -/
def truthy : JSValue → Bool
  | JSValue.undef => false
  | JSValue.null => false
  | JSValue.bool b => b
  | JSValue.num q => decide (q ≠ 0)
  | JSValue.str s => decide (s ≠ "")
  | JSValue.arr _ _ => true
  | JSValue.obj _ _ => true

/-- JS strict equality ===. Primitives compare by value; arrays and
objects compare by reference tag (within one constructor). -/
def jsStrictEq : JSValue → JSValue → Bool
  | JSValue.undef, JSValue.undef => true
  | JSValue.null, JSValue.null => true
  | JSValue.bool a, JSValue.bool b => a == b
  | JSValue.num a, JSValue.num b => decide (a = b)
  | JSValue.str a, JSValue.str b => a == b
  | JSValue.arr r _, JSValue.arr r2 _ => r == r2
  | JSValue.obj r _, JSValue.obj r2 _ => r == r2
  | _, _ => false

/-- Own enumerable keys of a value, as enumerated by a for-in loop:
field names for objects, decimal index strings for arrays, nothing for
primitives. -/
def jsKeys : JSValue → List String
  | JSValue.obj _ fields => fields.map (fun f => f.1)
  | JSValue.arr _ items => (List.range items.length).map (fun i => toString i)
  | _ => []

/-- Digit accumulation in a given base. -/
def hexDigitToNat (c : Char) : ℕ :=
  if c.isDigit then c.toNat - '0'.toNat
  else if 'a' ≤ c ∧ c ≤ 'f' then c.toNat - 'a'.toNat + 10
  else if 'A' ≤ c ∧ c ≤ 'F' then c.toNat - 'A'.toNat + 10
  else 0

def digitsVal (base : ℕ) (cs : List Char) : ℕ :=
  cs.foldl (fun acc c => acc * base + hexDigitToNat c) 0

/-- Parse of a plain decimal digit string. -/
def decimalToNat? (cs : List Char) : Option ℕ :=
  if ¬ cs.isEmpty ∧ cs.all Char.isDigit then some (digitsVal 10 cs) else none

/-- Property read v[key]; absent properties read as undefined. On arrays
only canonical decimal index strings reach elements, as in JS. -/
def jsGetKey : JSValue → String → JSValue
  | JSValue.obj _ fields, key =>
    (((fields.find? (fun f => f.1 == key)).map (fun f => f.2))).getD JSValue.undef
  | JSValue.arr _ items, key =>
    (match decimalToNat? key.data with
     | some n => if toString n = key then items.getD n JSValue.undef else JSValue.undef
     | none => JSValue.undef)
  | _, _ => JSValue.undef

/-- The JS membership test key in v, restricted to own enumerable keys
(the only form the engine uses). -/
def jsHasKey (v : JSValue) (key : String) : Bool :=
  (jsKeys v).contains key

/-- Exact rational addition in a kernel-reducible form (the field
operations of ℚ are opaque to kernel reduction; these helpers compute
through Rat.divInt and are proved equal to the field operations below). -/
def ratAdd (a b : ℚ) : ℚ := Rat.divInt (a.num * b.den + b.num * a.den) (a.den * b.den)

/-- Exact rational subtraction in a kernel-reducible form. -/
def ratSub (a b : ℚ) : ℚ := Rat.divInt (a.num * b.den - b.num * a.den) (a.den * b.den)

/-- Exact rational multiplication in a kernel-reducible form. -/
def ratMul (a b : ℚ) : ℚ := Rat.divInt (a.num * b.num) (a.den * b.den)

/-- Exact rational division in a kernel-reducible form (division by zero
yields zero, matching the ℚ convention; the engine never divides by zero). -/
def ratDiv (a b : ℚ) : ℚ := Rat.divInt (a.num * b.den) (a.den * b.num)

/-- Truncation toward zero, the rounding of the JS remainder operator. -/
def ratTrunc (q : ℚ) : ℤ := q.num.tdiv q.den

/-- Whitespace trimming on both ends, the trim done by the JS Number
cast (implemented over the character list so that it evaluates inside
the kernel). -/
def jsTrim (cs : List Char) : List Char :=
  ((cs.dropWhile Char.isWhitespace).reverse.dropWhile Char.isWhitespace).reverse

def isHexDigitChar (c : Char) : Bool :=
  c.isDigit || ('a' ≤ c && c ≤ 'f') || ('A' ≤ c && c ≤ 'F')

def spanDigits (cs : List Char) : List Char × List Char :=
  (cs.takeWhile Char.isDigit, cs.dropWhile Char.isDigit)

/-- Parse of a signed decimal numeric literal with optional fraction and
exponent, consuming the whole input, as accepted by the JS Number cast. -/
def parseDecimalLiteral (cs : List Char) : Option ℚ :=
  let signAndRest : ℤ × List Char :=
    match cs with
    | '+' :: r => (1, r)
    | '-' :: r => (-1, r)
    | _ => (1, cs)
  let intPart := spanDigits signAndRest.2
  let fracPart : List Char × List Char :=
    match intPart.2 with
    | '.' :: r => spanDigits r
    | _ => ([], intPart.2)
  if intPart.1.isEmpty && fracPart.1.isEmpty then none
  else
    let mant : ℤ := signAndRest.1 * (digitsVal 10 (intPart.1 ++ fracPart.1) : ℤ)
    let fracLen := fracPart.1.length
    match fracPart.2 with
    | [] => some (mkRat mant (10 ^ fracLen))
    | e :: r =>
      if e = 'e' ∨ e = 'E' then
        let expPositiveAndRest : Bool × List Char :=
          match r with
          | '+' :: r2 => (true, r2)
          | '-' :: r2 => (false, r2)
          | _ => (true, r)
        let expPart := spanDigits expPositiveAndRest.2
        if expPart.1.isEmpty ∨ ¬ expPart.2.isEmpty then none
        else
          let ex := digitsVal 10 expPart.1
          some (if expPositiveAndRest.1 then mkRat (mant * ((10 ^ ex : ℕ) : ℤ)) (10 ^ fracLen)
                else mkRat mant (10 ^ (fracLen + ex)))
      else none

/-- The JS Number cast applied to a string: whitespace is trimmed, the
empty string casts to 0, hexadecimal, octal and binary prefixes are
accepted without a sign, and anything else must be a full decimal
literal; none stands for NaN. Infinity literals are outside the rational
model and are mapped to none as well (no verified statement uses them). -/
def strToNumber (s : String) : Option ℚ :=
  let t := jsTrim s.data
  if t.isEmpty then some 0
  else if t = "Infinity".data ∨ t = "+Infinity".data ∨ t = "-Infinity".data then none
  else
    match t with
    | '0' :: x :: rest =>
      if x = 'x' ∨ x = 'X' then
        if ¬ rest.isEmpty ∧ rest.all isHexDigitChar then some (digitsVal 16 rest) else none
      else if x = 'o' ∨ x = 'O' then
        if ¬ rest.isEmpty ∧ rest.all (fun c => '0' ≤ c && c ≤ '7') then some (digitsVal 8 rest) else none
      else if x = 'b' ∨ x = 'B' then
        if ¬ rest.isEmpty ∧ rest.all (fun c => c = '0' ∨ c = '1') then some (digitsVal 2 rest) else none
      else parseDecimalLiteral t
    | _ => parseDecimalLiteral t

/-- Number formatting used by the String cast and JSON.stringify.
Integer-valued numbers print as their integer; JS prints other numbers
in decimal notation, which this model does not reproduce (no verified
statement formats a non-integer number). -/
def ratToJSString (q : ℚ) : String :=
  if q.den = 1 then toString q.num else toString q

/-- The JS String cast, with fuel for the recursion into array elements.
Arrays join their elements with commas, null and undefined elements
printing as the empty string; plain objects print as [object Object]. -/
def jsToStringFuel : ℕ → JSValue → String
  | 0, _ => ""
  | n + 1, v =>
    match v with
    | JSValue.undef => "undefined"
    | JSValue.null => "null"
    | JSValue.bool b => if b then "true" else "false"
    | JSValue.num q => ratToJSString q
    | JSValue.str s => s
    | JSValue.arr _ items =>
      String.intercalate ","
        (items.map (fun item =>
          match item with
          | JSValue.undef => ""
          | JSValue.null => ""
          | w => jsToStringFuel n w))
    | JSValue.obj _ _ => "[object Object]"

def jsToString (v : JSValue) : String := jsToStringFuel (jsSize v) v

/-- The JS Number cast on arbitrary values; none stands for NaN. Arrays
cast through their string representation, plain objects cast through
"[object Object]" and are therefore NaN. -/
def jsToNumber : JSValue → Option ℚ
  | JSValue.undef => none
  | JSValue.null => some 0
  | JSValue.bool b => some (if b then 1 else 0)
  | JSValue.num q => some q
  | JSValue.str s => strToNumber s
  | JSValue.arr r items => strToNumber (jsToString (JSValue.arr r items))
  | JSValue.obj _ _ => none

/-- Math.round: round half toward positive infinity, exact on rationals
(computed through the reducible rational helpers). -/
def jsRound (x : ℚ) : ℚ := ((⌊ratAdd x (mkRat 1 2)⌋ : ℤ) : ℚ)

/-- The JS remainder operator a % b, a - b * trunc(a / b), for b
different from zero (the engine only evaluates it under that guard). -/
def jsMod (a b : ℚ) : ℚ := ratSub a (ratMul b ((ratTrunc (ratDiv a b) : ℤ) : ℚ))

/-- JSON whitespace. -/
def isJsonWs (c : Char) : Bool :=
  c = ' ' || c = '\t' || c = '\n' || c = '\r'

def skipWs (cs : List Char) : List Char := cs.dropWhile isJsonWs

/-- Parse of a JSON string body after the opening quote, supporting the
simple escapes; unicode escapes are outside the model (no verified
statement parses one). -/
def jpStringBody : ℕ → List Char → Option (String × List Char)
  | 0, _ => none
  | _ + 1, [] => none
  | n + 1, c :: rest =>
    if c = '"' then some ("", rest)
    else if c = '\\' then
      match rest with
      | [] => none
      | e :: rest2 =>
        let esc : Option Char :=
          if e = '"' then some '"'
          else if e = '\\' then some '\\'
          else if e = '/' then some '/'
          else if e = 'n' then some '\n'
          else if e = 't' then some '\t'
          else if e = 'r' then some '\r'
          else if e = 'b' then some (Char.ofNat 8)
          else if e = 'f' then some (Char.ofNat 12)
          else none
        match esc with
        | none => none
        | some ec =>
          match jpStringBody n rest2 with
          | some (s, rem) => some (String.mk (ec :: s.data), rem)
          | none => none
    else
      match jpStringBody n rest with
      | some (s, rem) => some (String.mk (c :: s.data), rem)
      | none => none

/-- Parse of a JSON number literal: optional minus sign, integer part
without superfluous leading zeros, optional fraction and exponent. -/
def jpNumber (cs : List Char) : Option (ℚ × List Char) :=
  let signAndRest : ℤ × List Char :=
    match cs with
    | '-' :: r => (-1, r)
    | _ => (1, cs)
  let intPart := spanDigits signAndRest.2
  let intOk : Bool :=
    match intPart.1 with
    | [] => false
    | ['0'] => true
    | '0' :: _ => false
    | _ => true
  if ¬ intOk then none
  else
    let fracResult : Option (List Char × List Char) :=
      match intPart.2 with
      | '.' :: r =>
        let fracPart := spanDigits r
        if fracPart.1.isEmpty then none else some (fracPart.1, fracPart.2)
      | _ => some ([], intPart.2)
    match fracResult with
    | none => none
    | some (fracDs, cs2) =>
      let mant : ℤ := signAndRest.1 * (digitsVal 10 (intPart.1 ++ fracDs) : ℤ)
      let fracLen := fracDs.length
      match cs2 with
      | e :: r =>
        if e = 'e' ∨ e = 'E' then
          let expPositiveAndRest : Bool × List Char :=
            match r with
            | '+' :: r2 => (true, r2)
            | '-' :: r2 => (false, r2)
            | _ => (true, r)
          let expPart := spanDigits expPositiveAndRest.2
          if expPart.1.isEmpty then none
          else
            let ex := digitsVal 10 expPart.1
            some (if expPositiveAndRest.1 then mkRat (mant * ((10 ^ ex : ℕ) : ℤ)) (10 ^ fracLen)
                  else mkRat mant (10 ^ (fracLen + ex)), expPart.2)
        else some (mkRat mant (10 ^ fracLen), cs2)
      | [] => some (mkRat mant (10 ^ fracLen), [])

mutual

/-- Recursive JSON value parser with fuel; parsed arrays and objects are
given reference tag 0 (fresh allocations, never compared by identity in
the verified statements). -/
def jpValue : ℕ → List Char → Option (JSValue × List Char)
  | 0, _ => none
  | n + 1, cs =>
    match skipWs cs with
    | [] => none
    | 'n' :: 'u' :: 'l' :: 'l' :: rest => some (JSValue.null, rest)
    | 't' :: 'r' :: 'u' :: 'e' :: rest => some (JSValue.bool true, rest)
    | 'f' :: 'a' :: 'l' :: 's' :: 'e' :: rest => some (JSValue.bool false, rest)
    | '"' :: rest =>
      (match jpStringBody (n + 1) rest with
       | some (s, rem) => some (JSValue.str s, rem)
       | none => none)
    | '[' :: rest =>
      (match skipWs rest with
       | ']' :: rem => some (JSValue.arr 0 [], rem)
       | cs2 =>
         match jpItems n cs2 with
         | some (items, rem) => some (JSValue.arr 0 items, rem)
         | none => none)
    | '{' :: rest =>
      (match skipWs rest with
       | '}' :: rem => some (JSValue.obj 0 [], rem)
       | cs2 =>
         match jpFields n cs2 with
         | some (fields, rem) => some (JSValue.obj 0 fields, rem)
         | none => none)
    | cs2 =>
      (match jpNumber cs2 with
       | some (q, rem) => some (JSValue.num q, rem)
       | none => none)

def jpItems : ℕ → List Char → Option (List JSValue × List Char)
  | 0, _ => none
  | n + 1, cs =>
    match jpValue n cs with
    | none => none
    | some (v, rem) =>
      match skipWs rem with
      | ',' :: rest =>
        (match jpItems n rest with
         | some (items, rem2) => some (v :: items, rem2)
         | none => none)
      | ']' :: rest => some ([v], rest)
      | _ => none

def jpFields : ℕ → List Char → Option (List (String × JSValue) × List Char)
  | 0, _ => none
  | n + 1, cs =>
    match skipWs cs with
    | '"' :: rest =>
      (match jpStringBody (n + 1) rest with
       | none => none
       | some (key, rem) =>
         match skipWs rem with
         | ':' :: rest2 =>
           (match jpValue n rest2 with
            | none => none
            | some (v, rem2) =>
              match skipWs rem2 with
              | ',' :: rest3 =>
                (match jpFields n rest3 with
                 | some (fields, rem3) => some ((key, v) :: fields, rem3)
                 | none => none)
              | '}' :: rest3 => some ([(key, v)], rest3)
              | _ => none)
         | _ => none)
    | _ => none

end

/-- JSON.parse, returning none when the parse throws. -/
def jsonParse (s : String) : Option JSValue :=
  match jpValue (s.length + 1) s.data with
  | some (v, rest) => if (skipWs rest).isEmpty then some v else none
  | none => none

/-- Quoting of a string for JSON.stringify with the simple escapes. -/
def jsonQuote (s : String) : String :=
  "\"" ++ String.join (s.data.map (fun c =>
    if c = '"' then "\\\""
    else if c = '\\' then "\\\\"
    else if c = '\n' then "\\n"
    else if c = '\t' then "\\t"
    else if c = '\r' then "\\r"
    else String.mk [c])) ++ "\""

/-- JSON.stringify with fuel; none stands for the JS undefined result
(produced for an undefined top-level value). Undefined array elements
serialize as null and undefined object properties are skipped. -/
def jsonStringifyFuel : ℕ → JSValue → Option String
  | 0, _ => none
  | n + 1, v =>
    match v with
    | JSValue.undef => none
    | JSValue.null => some "null"
    | JSValue.bool b => some (if b then "true" else "false")
    | JSValue.num q => some (ratToJSString q)
    | JSValue.str s => some (jsonQuote s)
    | JSValue.arr _ items =>
      some ("[" ++
        String.intercalate ","
          (items.map (fun item => (jsonStringifyFuel n item).getD "null")) ++ "]")
    | JSValue.obj _ fields =>
      some ("\x7b" ++
        String.intercalate ","
          (fields.filterMap (fun f =>
            (jsonStringifyFuel n f.2).map (fun sv => jsonQuote f.1 ++ ":" ++ sv))) ++ "\x7d")

def jsonStringify (v : JSValue) : Option String := jsonStringifyFuel (jsSize v) v

/-- The structuredClone global: a deep structural copy. The fresh heap
references of the copy are modelled coarsely by tag 0; no verified
statement compares a clone by identity. -/
def structuredCloneFuel : ℕ → JSValue → JSValue
  | 0, v => v
  | n + 1, v =>
    match v with
    | JSValue.arr _ items => JSValue.arr 0 (items.map (structuredCloneFuel n))
    | JSValue.obj _ fields => JSValue.obj 0 (fields.map (fun f => (f.1, structuredCloneFuel n f.2)))
    | w => w

def structuredClone (v : JSValue) : JSValue := structuredCloneFuel (jsSize v) v

/-- Whether a value is a non-null object in the typeof sense (arrays
included), the guard used by isEquivalentTo. -/
def isObjectLike (v : JSValue) : Bool :=
  typeofStr v == "object" && !(isNullV v)

/-- Translation of isEquivalentTo from src/generic/coercion.ts. The two
key loops compare a[key] with b[key] recursively and return false on the
first mismatch; after both loops the function falls through to the
strict-equality comparison a === b, objects included. The fuel always
suffices, since every recursive call is on strictly smaller values. -/
def isEquivalentToFuel : ℕ → JSValue → JSValue → Bool
  | 0, a, b => jsStrictEq a b
  | n + 1, a, b =>
    if isObjectLike a && isObjectLike b then
      (jsKeys a).all (fun key => isEquivalentToFuel n (jsGetKey a key) (jsGetKey b key)) &&
      ((jsKeys b).filter (fun key => !(jsKeys a).contains key)).all
        (fun key => isEquivalentToFuel n (jsGetKey a key) (jsGetKey b key)) &&
      jsStrictEq a b
    else jsStrictEq a b

def isEquivalentTo (a b : JSValue) : Bool :=
  isEquivalentToFuel (jsSize a + jsSize b) a b

/-- ValueTypeEnforcer.unwrap: extract the configured value property from
object-like values that carry it; otherwise return the value unchanged. -/
def unwrap (valueProperty : Option String) (value : JSValue) : JSValue :=
  match valueProperty with
  | some prop =>
    if typeofStr value == "object" && !(isNullV value) && jsHasKey value prop
    then jsGetKey value prop
    else value
  | none => value

/-- ValueTypeEnforcer.validate for the enforcers that keep the base
implementation: a typeof check against the configured type name. -/
def valueTypeValidate (typeName : String) (value : JSValue) : Bool :=
  typeofStr value == typeName

/-- ArrayEnforcer.validate: Array.isArray. -/
def arrayValidate (value : JSValue) : Bool := isJSArrayB value

/-- The assignment values[index] = v on a JS array for a numeric index:
a nonnegative integer index stores the element, padding any gap with
undefined holes; other numeric indices become non-index properties of
the array object, which leave the element sequence unchanged and are not
tracked by this model (nor is the 2^32 - 1 index bound, far beyond any
value handled here). -/
def jsArraySet (l : List JSValue) (idx : ℚ) (v : JSValue) : List JSValue :=
  if idx.den = 1 ∧ 0 ≤ idx.num then
    let n := idx.num.toNat
    if n < l.length then l.set n v
    else l ++ List.replicate (n - l.length) JSValue.undef ++ [v]
  else l

/-- The object branch of ArrayEnforcer.coerce: for each own key in
order, cast the key with Number and, unless the cast is NaN, assign the
property value at that index. -/
def objToArrayElems (fields : List (String × JSValue)) : List JSValue :=
  fields.foldl (fun values f =>
    match strToNumber f.1 with
    | some index => jsArraySet values index f.2
    | none => values) []

/-- ArrayEnforcer.coerce from src/generic/coercion.ts: unwrap, then the
typeof switch (string: JSON parse kept only when it yields an array;
object: arrays returned as is, other non-null objects rebuilt from their
numeric keys), then the nullish default, then single-element wrapping. -/
def arrayCoerce (defaultValue : Option (List JSValue)) (valueProperty : Option String)
    (value : JSValue) : JSValue :=
  let unwrapped := unwrap valueProperty value
  let fromSwitch : Option JSValue :=
    match unwrapped with
    | JSValue.str s =>
      (match jsonParse s with
       | some parsed => if isJSArrayB parsed then some parsed else none
       | none => none)
    | JSValue.null => none
    | JSValue.arr r items => some (JSValue.arr r items)
    | JSValue.obj _ fields => some (JSValue.arr 0 (objToArrayElems fields))
    | _ => none
  match fromSwitch with
  | some result => result
  | none =>
    match defaultValue with
    | some dv => if isNullish unwrapped then JSValue.arr 0 ((dv.map structuredClone)) else JSValue.arr 0 [unwrapped]
    | none => JSValue.arr 0 [unwrapped]

/-- BooleanEnforcer.validate: typeof check. -/
def booleanValidate (value : JSValue) : Bool := valueTypeValidate "boolean" value

/-- BooleanEnforcer.coerce: unwrap, nullish default, Boolean cast. -/
def booleanCoerce (defaultValue : Option Bool) (valueProperty : Option String)
    (value : JSValue) : Bool :=
  let unwrapped := unwrap valueProperty value
  match defaultValue with
  | some dv => if isNullish unwrapped then dv else truthy unwrapped
  | none => truthy unwrapped

/-- NumberEnforcer.validate: typeof check. -/
def numberValidate (value : JSValue) : Bool := valueTypeValidate "number" value

/-- NumberEnforcer.coerce: unwrap, Number cast, with the default (or 0)
replacing a NaN cast. -/
def numberCoerce (defaultValue : Option ℚ) (valueProperty : Option String)
    (value : JSValue) : ℚ :=
  let unwrapped := unwrap valueProperty value
  match jsToNumber unwrapped with
  | some n => n
  | none => defaultValue.getD 0

/-- SteppedNumberEnforcer.validate: a number that is evenly divisible by
the step (any number when the step is 0). -/
def steppedNumberValidate (step : ℚ) (value : JSValue) : Bool :=
  match value with
  | JSValue.num q => decide (step = 0) || decide (jsMod q step = 0)
  | _ => false

/-- SteppedNumberEnforcer.coerce: the parent numeric cast, rounded to
the nearest multiple of the step when the step is nonzero. -/
def steppedNumberCoerce (defaultValue : Option ℚ) (step : ℚ) (valueProperty : Option String)
    (value : JSValue) : ℚ :=
  let num := numberCoerce defaultValue valueProperty value
  if step ≠ 0 then ratMul (jsRound (ratDiv num step)) step else num

/-- ObjectEnforcer.validate: a non-null, non-array object. -/
def objectValidate (value : JSValue) : Bool :=
  typeofStr value == "object" && !(isNullV value) && !(isJSArrayB value)

/-- The array branch of ObjectEnforcer.coerce: defined elements keyed by
their stringified index, undefined slots skipped. -/
def arrayToObjFields (items : List JSValue) : List (String × JSValue) :=
  items.enum.filterMap (fun p =>
    match p.2 with
    | JSValue.undef => none
    | v => some (toString p.1, v))

/-- ObjectEnforcer.coerce from src/generic/coercion.ts: the typeof
switch on the raw value (string: JSON parse kept only when it validates
as an object; array: rebuilt as an index-keyed object; other non-null
objects returned as is), then a deep-copied default, then wrapping under
the value property, then the empty object. -/
def objectCoerce (defaultValue : Option (List (String × JSValue))) (valueProperty : Option String)
    (value : JSValue) : JSValue :=
  let fromSwitch : Option JSValue :=
    match value with
    | JSValue.str s =>
      (match jsonParse s with
       | some parsed => if objectValidate parsed then some parsed else none
       | none => none)
    | JSValue.null => none
    | JSValue.arr _ items => some (JSValue.obj 0 (arrayToObjFields items))
    | JSValue.obj r fields => some (JSValue.obj r fields)
    | _ => none
  match fromSwitch with
  | some result => result
  | none =>
    match defaultValue with
    | some dv => JSValue.obj 0 (dv.map (fun f => (f.1, structuredClone f.2)))
    | none =>
      match valueProperty with
      | some prop => JSValue.obj 0 [(prop, value)]
      | none => JSValue.obj 0 []

/-- StringEnforcer.validate: typeof check. -/
def stringValidate (value : JSValue) : Bool := valueTypeValidate "string" value

/-- StringEnforcer.coerce from src/generic/coercion.ts: unwrap; strings
pass through; a nullish value takes the default when one exists;
otherwise the result of JSON.stringify is returned as is - for an
undefined value JSON.stringify evaluates to undefined, so the coercion
returns undefined, not a string. The catch fallback (a String cast) only
fires when JSON.stringify throws, which cannot happen for the acyclic
values of this model. -/
def stringCoerce (defaultValue : Option String) (valueProperty : Option String)
    (value : JSValue) : JSValue :=
  let unwrapped := unwrap valueProperty value
  match unwrapped with
  | JSValue.str s => JSValue.str s
  | _ =>
    match defaultValue with
    | some dv =>
      if isNullish unwrapped then JSValue.str dv
      else
        (match jsonStringify unwrapped with
         | some s => JSValue.str s
         | none => JSValue.undef)
    | none =>
      (match jsonStringify unwrapped with
       | some s => JSValue.str s
       | none => JSValue.undef)

/-- StrictEqualityEnforcer.validate: the strict-equality check against
the configured value. -/
def strictEqualityValidate (configured : JSValue) (value : JSValue) : Bool :=
  jsStrictEq value configured

/-- AnyValueEnforcer: always valid, identity coercion. -/
def anyValueValidate (_ : JSValue) : Bool := true


/-- KeywordError from src/generic/keywords.ts. The keyword and value
fields are optional because boolean-schema rejections report a partial
error carrying only the target; priorities are JS numbers, modelled as
integers (every priority in the engine is an integer literal). -/
structure KeywordError where
  keyword : Option String
  value : Option JSValue
  target : JSValue
  priority : Option ℤ
  coerce : Option (JSValue → JSValue)

/-- ErrorLog specialized to keyword errors, the validation outcome type
of the keyword rule engine. -/
structure KErrorLog where
  errors : List KeywordError

/-- ValueConstraint over JSValue with keyword-error-log validation: the
shape shared by keyword enforcers, forks and composite enforcers. -/
structure Constraint where
  validate : JSValue → KErrorLog
  coerce : Option (JSValue → JSValue)

/-- ValidationParser: isValid, getValid and rateValidity over a
validation type. -/
structure ValidationParser (V : Type) where
  isValid : V → Bool
  getValid : V
  rateValidity : V → ℤ

/-- BooleanValidationParser from src/generic/validation.ts. -/
def booleanValidationParser : ValidationParser Bool :=
  { isValid := fun value => value,
    getValid := true,
    rateValidity := fun value => if value then 1 else 0 }

/-- ErrorLogValidationParser from src/generic/validation.ts: valid when
the error list is empty; rating is 1 minus the number of errors. -/
def errorLogValidationParser : ValidationParser KErrorLog :=
  { isValid := fun value => decide (value.errors.length < 1),
    getValid := { errors := [] },
    rateValidity := fun value => 1 - (value.errors.length : ℤ) }

/-- The rating override of KeywordErrorLogValidationParser from
src/generic/keywords.ts: when errors are present, scan them keeping the
largest priority found so far, starting from 0 and skipping absent
priorities, and return its negation; otherwise 1. -/
def keywordRateValidity (value : KErrorLog) : ℤ :=
  if value.errors.length > 0 then
    -(value.errors.foldl (fun maxErrorPriority error =>
        match error.priority with
        | some p => if p > maxErrorPriority then p else maxErrorPriority
        | none => maxErrorPriority) 0)
  else 1

/-- KeywordErrorLogValidationParser: the error-log parser with the
priority-aware rating. -/
def keywordErrorLogValidationParser : ValidationParser KErrorLog :=
  { errorLogValidationParser with rateValidity := keywordRateValidity }

/-- mergeCoerceSteps from src/generic/coercion.ts: thread the value
through every step in order. -/
def mergeCoerceSteps (steps : List (JSValue → JSValue)) : JSValue → JSValue :=
  fun value => steps.foldl (fun converted coerce => coerce converted) value

/-- Loop body of mergeValidateSteps: return the first invalid result. -/
def mergeValidateStepsGo {V : Type} (validationParser : ValidationParser V) (value : JSValue) :
    List (JSValue → V) → V
  | [] => validationParser.getValid
  | validate :: rest =>
    let validation := validate value
    if ¬ validationParser.isValid validation then validation
    else mergeValidateStepsGo validationParser value rest

/-- mergeValidateSteps from src/generic/validation.ts: run the steps in
order, return the first result the parser deems invalid, and fall
through to the canonical valid value. -/
def mergeValidateSteps {V : Type} (steps : List (JSValue → V))
    (validationParser : ValidationParser V) : JSValue → V :=
  fun value => mergeValidateStepsGo validationParser value steps

/-- KeywordValueEnforcer.validate from src/generic/keywords.ts: an empty
log when the check passes, else a single error carrying the keyword, the
schema value, the target, the priority and the repair coercion. -/
def keywordValueValidate (keyword : String) (value : JSValue) (check : JSValue → Bool)
    (coerce : Option (JSValue → JSValue)) (priority : ℤ) (target : JSValue) : KErrorLog :=
  if check target then { errors := [] }
  else
    { errors :=
        [{ keyword := some keyword, value := some value, target := target,
           priority := some priority, coerce := coerce }] }

/-- KeywordValueEnforcer as a constraint. -/
def mkKeywordValueEnforcer (keyword : String) (value : JSValue) (check : JSValue → Bool)
    (coerce : Option (JSValue → JSValue)) (priority : ℤ) : Constraint :=
  { validate := keywordValueValidate keyword value check coerce priority,
    coerce := coerce }

/-- KeywordEnforcerFork.getHighestPriorityError, translated exactly: the
highestPriority variable is declared const at negative infinity and is
never reassigned, so every error with a priority above negative infinity
replaces the current match and the loop ends on the last error. -/
def getHighestPriorityError (errors : List KeywordError) : Option KeywordError :=
  let highestPriority : WithBot ℤ := ⊥
  errors.foldl (fun match? error =>
    let priority : ℤ := error.priority.getD 0
    if match?.isNone || decide (highestPriority < (priority : WithBot ℤ)) then some error
    else match?) none

/-- Loop of KeywordEnforcerFork.validate: return the first branch result
with no errors; otherwise keep the failing result whose reported
priority (as computed by getHighestPriorityError) is lowest, ties going
to the earliest branch. -/
def forkValidateGo (target : JSValue) :
    List Constraint → Option KErrorLog → WithTop ℤ → KErrorLog
  | [], result, _ => result.getD { errors := [] }
  | branch :: rest, result, lowestPriority =>
    let validation := branch.validate target
    if validation.errors.length < 1 then validation
    else
      let priority : ℤ := ((getHighestPriorityError validation.errors).bind
        (fun error => error.priority)).getD 0
      if result.isNone || decide ((priority : WithTop ℤ) < lowestPriority) then
        forkValidateGo target rest (some validation) (priority : WithTop ℤ)
      else forkValidateGo target rest result lowestPriority

/-- KeywordEnforcerFork.validate from src/generic/keywords.ts. -/
def forkValidate (branches : List Constraint) (target : JSValue) : KErrorLog :=
  forkValidateGo target branches none ⊤

/-- KeywordEnforcerFork.coerce: re-validate, use the first reported
error's attached coercion when present, else the default coercion. -/
def forkCoerce (branches : List Constraint) (defaultCoerce : JSValue → JSValue)
    (value : JSValue) : JSValue :=
  let validation := forkValidate branches value
  match validation.errors.head? with
  | some error =>
    (match error.coerce with
     | some coerce => coerce value
     | none => defaultCoerce value)
  | none => defaultCoerce value

/-- KeywordEnforcerFork as a constraint. -/
def mkKeywordEnforcerFork (branches : List Constraint) (defaultCoerce : JSValue → JSValue) :
    Constraint :=
  { validate := forkValidate branches,
    coerce := some (forkCoerce branches defaultCoerce) }

/-- KeywordRule: a keyword together with the rule deciding whether a
schema yields a constraint. The context parameter of the source (a map
of sibling enforcers) is omitted: neither modelled rule reads it. -/
structure KeywordRuleM where
  keyword : String
  getEnforcerFor : JSValue → Option Constraint

/-- KeywordRulesEnforcer: the composite SchemaEnforcer produced by the
sequential factory, carrying the schema and the per-keyword enforcers. -/
structure SchemaEnforcerM where
  schema : JSValue
  validate : JSValue → KErrorLog
  coerce : Option (JSValue → JSValue)
  enforcers : List (String × Constraint)

/-- The applicable rules of a schema, in rule order: each rule asked for
an enforcer, keeping those that produced one (the accumulation loop of
SequentialKeywordEnforcerFactory.process). -/
def applicableRuleEnforcers (rules : List KeywordRuleM) (schema : JSValue) :
    List (String × Constraint) :=
  rules.filterMap (fun rule =>
    (rule.getEnforcerFor schema).map (fun enforcer => (rule.keyword, enforcer)))

/-- SequentialKeywordEnforcerFactory.process from src/generic/keywords.ts:
validations of the applicable rules merge through mergeValidateSteps with
the plain error-log parser (the factory constructs an
ErrorLogValidationParser; only isValid and getValid reach the merge),
coercions merge through mergeCoerceSteps, and the composite only carries
a coercion when at least one rule supplied one. -/
def sequentialKeywordEnforcerProcess (rules : List KeywordRuleM) (schema : JSValue) :
    SchemaEnforcerM :=
  let enforcers := applicableRuleEnforcers rules schema
  let validateQueue := enforcers.map (fun e => e.2.validate)
  let coerceQueue := enforcers.filterMap (fun e => e.2.coerce)
  { schema := schema,
    validate := mergeValidateSteps validateQueue errorLogValidationParser,
    coerce := if coerceQueue.length > 0 then some (mergeCoerceSteps coerceQueue) else none,
    enforcers := enforcers }

/-- The validate and coerce pair of one primitive type enforcer, the
typeEnforcer argument of TypeKeywordRule. -/
structure TypeRuleData where
  validate : JSValue → Bool
  coerce : JSValue → JSValue

/-- TypeKeywordRule.getEnforcerFor with no typed keyword set (the JSON
schema bindings never configure one): a TypeKeywordEnforcer whose check
is the base type predicate at priority 100, whose coercion is the type
cast (no nested rules enforcer exists, so only the cast applies), and
whose reported error carries that coercion. -/
def mkTypeKeywordEnforcer (keyword : String) (rd : TypeRuleData) (schema : JSValue) :
    Constraint :=
  mkKeywordValueEnforcer keyword (jsGetKey schema keyword) rd.validate (some rd.coerce) 100

/-- The fixed table built by createJSONSchemaTypeRules in
src/json-schema/coercion.ts, with the defaults the factory uses (no
value property): any, array, boolean (default false), integer (stepped
number, default 0, step 1), null (strict equality with null), number
(default 0), object, string (default empty string). -/
def createJSONSchemaTypeRules : List (String × TypeRuleData) :=
  [("any", { validate := anyValueValidate, coerce := fun value => value }),
   ("array", { validate := arrayValidate, coerce := arrayCoerce none none }),
   ("boolean", { validate := booleanValidate,
                 coerce := fun value => JSValue.bool (booleanCoerce (some false) none value) }),
   ("integer", { validate := steppedNumberValidate 1,
                 coerce := fun value => JSValue.num (steppedNumberCoerce (some 0) 1 none value) }),
   ("null", { validate := strictEqualityValidate JSValue.null,
              coerce := fun _ => JSValue.null }),
   ("number", { validate := numberValidate,
                coerce := fun value => JSValue.num (numberCoerce (some 0) none value) }),
   ("object", { validate := objectValidate, coerce := objectCoerce none none }),
   ("string", { validate := stringValidate, coerce := stringCoerce (some "") none })]

/-- The identity coercion echoValue, the default coercion handed to the
type fork. -/
def echoValue (value : JSValue) : JSValue := value

/-- JSONSchemaTypeRule.getEnforcerFor from src/json-schema/coercion.ts:
a string type value resolves through the rule table; an array type value
keeps its string entries, resolves each through the table, and builds a
KeywordEnforcerFork over the resulting enforcers with identity default
coercion; any other type value yields no enforcer. -/
def jsonSchemaTypeRuleGetEnforcerFor (schema : JSValue) : Option Constraint :=
  match jsGetKey schema "type" with
  | JSValue.str typeValue =>
    (createJSONSchemaTypeRules.lookup typeValue).map
      (fun rd => mkTypeKeywordEnforcer "type" rd schema)
  | JSValue.arr _ typeValue =>
    let typeNames := typeValue.filterMap (fun item =>
      match item with
      | JSValue.str s => some s
      | _ => none)
    let targetRules := typeNames.filterMap (fun typeName =>
      createJSONSchemaTypeRules.lookup typeName)
    let typeEnforcers := targetRules.map (fun rd => mkTypeKeywordEnforcer "type" rd schema)
    some (mkKeywordEnforcerFork typeEnforcers echoValue)
  | _ => none

/-- JSONSchemaConstRule.getEnforcerFor from src/json-schema/coercion.ts:
when the const keyword is present (not undefined), a KeywordValueEnforcer
checking isEquivalentTo against the constant, whose coercion returns a
structured clone of the constant, at priority 150. -/
def jsonSchemaConstRuleGetEnforcerFor (schema : JSValue) : Option Constraint :=
  match jsGetKey schema "const" with
  | JSValue.undef => none
  | value =>
    some (mkKeywordValueEnforcer "const" value
      (fun target => isEquivalentTo target value)
      (some (fun _ => structuredClone value)) 150)

/-- JSONSchemaAnyValueEnforcer: every value validates with an empty log
and coercion is the identity. -/
def jsonSchemaAnyValueEnforcer : SchemaEnforcerM :=
  { schema := JSValue.bool true,
    validate := fun _ => { errors := [] },
    coerce := some (fun value => value),
    enforcers := [] }

/-- JSONSchemaNoValueEnforcer: every value fails with one partial error
carrying only the target, and the class declares no coerce at all. -/
def jsonSchemaNoValueEnforcer : SchemaEnforcerM :=
  { schema := JSValue.bool false,
    validate := fun value =>
      { errors := [{ keyword := none, value := none, target := value,
                     priority := none, coerce := none }] },
    coerce := none,
    enforcers := [] }

/-- The default rule list of JSONSchemaEnforcerFactory: the type rule
then the const rule. -/
def jsonSchemaEnforcerFactoryRules : List KeywordRuleM :=
  [{ keyword := "type", getEnforcerFor := jsonSchemaTypeRuleGetEnforcerFor },
   { keyword := "const", getEnforcerFor := jsonSchemaConstRuleGetEnforcerFor }]

/-- JSONSchemaEnforcerFactory.process: boolean schemas take the fixed
any-value and no-value enforcers, object schemas go through the
sequential keyword factory. -/
def jsonSchemaEnforcerFactoryProcess (schema : JSValue) : SchemaEnforcerM :=
  match schema with
  | JSValue.bool b => if b then jsonSchemaAnyValueEnforcer else jsonSchemaNoValueEnforcer
  | _ => sequentialKeywordEnforcerProcess jsonSchemaEnforcerFactoryRules schema

/-- LabeledValue from src/generic/options.ts. -/
structure LabeledValue (T : Type) where
  label : String
  value : T

/-- JSON_SCHEMA_LABEL_PROPERTIES from src/json-schema/options.ts. -/
def JSON_SCHEMA_LABEL_PROPERTIES : List String :=
  ["title", "$id", "$ref", "description", "$comment", "const", "format", "type"]

/-- The oneOf list of ANY_VALUE_JSON_SCHEMA, the canonical expansion of
the true schema. -/
def anyValueJsonSchemaOneOf : List JSValue :=
  [JSValue.obj 0 [("type", JSValue.str "null")],
   JSValue.obj 0 [("type", JSValue.str "boolean")],
   JSValue.obj 0 [("type", JSValue.str "string")],
   JSValue.obj 0 [("type", JSValue.str "number")],
   JSValue.obj 0 [("type", JSValue.str "integer")],
   JSValue.obj 0 [("type", JSValue.str "array"), ("items", JSValue.bool true)],
   JSValue.obj 0 [("type", JSValue.str "object"), ("additionalProperties", JSValue.bool true)]]

/-- NO_VALUE_JSON_SCHEMA, the always-invalid placeholder schema. -/
def noValueJsonSchema : JSValue :=
  JSValue.obj 0
    [("title", JSValue.str "NO_VALUE_JSON_SCHEMA"),
     ("allOf", JSValue.arr 0
       [JSValue.obj 0 [("type", JSValue.str "boolean")],
        JSValue.obj 0 [("type", JSValue.str "string")]])]

/-- The filter applied to subschema lists: booleans and non-array,
non-null objects are kept. -/
def isFlagOrObject (item : JSValue) : Bool :=
  typeofStr item == "boolean" ||
    (typeofStr item == "object" && !(isNullV item) && !(isJSArrayB item))

/-- Element list of an array value (the reads the splitter performs
after an Array.isArray check). -/
def arrayItems : JSValue → List JSValue
  | JSValue.arr _ items => items
  | _ => []

/-- JSONSchemaSplitter.process from src/json-schema/options.ts, with the
splitter's configuration explicit: boolean schemas expand to the
configured lists; then a non-empty enum keyword whose value is an array
expands to one const subschema per entry; then the first subschema
keyword holding an array supplies that array filtered to booleans and
objects; then an array type keyword expands to one single-type schema
per string entry; otherwise the schema is its own sole alternative. -/
def jsonSchemaSplitterProcess (subschemaKeys : List String) (enumKey : String)
    (booleanTrue booleanFalse : List JSValue) (source : JSValue) : List JSValue :=
  match source with
  | JSValue.bool b => if b then booleanTrue else booleanFalse
  | _ =>
    let enumValues := jsGetKey source enumKey
    if enumKey ≠ "" ∧ isJSArrayB enumValues = true then
      (arrayItems enumValues).map (fun item => JSValue.obj 0 [("const", item)])
    else
      match subschemaKeys.findSome? (fun keyword =>
        let keyValue := jsGetKey source keyword
        if isJSArrayB keyValue = true then
          some ((arrayItems keyValue).filter isFlagOrObject)
        else none) with
      | some filteredItems => filteredItems
      | none =>
        let typeValue := jsGetKey source "type"
        if isJSArrayB typeValue = true then
          ((arrayItems typeValue).filterMap (fun item =>
            match item with
            | JSValue.str s => some s
            | _ => none)).map (fun t => JSValue.obj 0 [("type", JSValue.str t)])
        else [source]

/-- The default splitter configuration: subschema keys oneOf then anyOf,
enum key enum, and the canonical boolean expansions (the true list is a
structured clone of the any-value alternatives). -/
def jsonSchemaSplitterDefault (source : JSValue) : List JSValue :=
  jsonSchemaSplitterProcess ["oneOf", "anyOf"] "enum"
    (anyValueJsonSchemaOneOf.map structuredClone) [noValueJsonSchema] source

/-- KeyedSchemaLabeler.process from src/generic/options.ts with no
translate hook configured (the default): walk the keyword list; a
present keyword with an array value labels by joining the stringified
items with the delimiter unless the array is empty (then the walk
continues); any other present value labels by its String cast; when no
keyword applies the whole schema is stringified. -/
def keyedSchemaLabelerProcess (delimiter : String) (source : JSValue) :
    List String → String
  | [] => jsToString source
  | keyword :: rest =>
    if jsHasKey source keyword then
      match jsGetKey source keyword with
      | JSValue.arr _ items =>
        if items.length < 1 then keyedSchemaLabelerProcess delimiter source rest
        else String.intercalate delimiter (items.map jsToString)
      | value => jsToString value
    else keyedSchemaLabelerProcess delimiter source rest

/-- JSONSchemaLabeler.process with the default configuration: boolean
schemas take the fixed titles, object schemas go through the keyed
labeler over the standard label properties with delimiter /. -/
def jsonSchemaLabelerProcess (source : JSValue) : String :=
  match source with
  | JSValue.bool b => if b then "ANY_VALUE_JSON_SCHEMA" else "NO_VALUE_JSON_SCHEMA"
  | _ => keyedSchemaLabelerProcess "/" source JSON_SCHEMA_LABEL_PROPERTIES

/-- SchemaOptionsFactory.process as configured by
JSONSchemaOptionsFactory: split the schema, then pair each subschema's
label with the enforcer built for it. -/
def jsonSchemaOptionsFactoryProcess (schema : JSValue) : List (LabeledValue SchemaEnforcerM) :=
  (jsonSchemaSplitterDefault schema).map (fun source =>
    { label := jsonSchemaLabelerProcess source,
      value := jsonSchemaEnforcerFactoryProcess source })

/-- Specification-side notion of deep equality, written from the words
of the spec and of claim C3 (equality checked over own-enumerable keys
in both directions, falling back to identity for primitives), to be
compared with the source function isEquivalentTo. -/
def specDeepEqualFuel : ℕ → JSValue → JSValue → Bool
  | 0, a, b => jsStrictEq a b
  | n + 1, a, b =>
    if isObjectLike a && isObjectLike b then
      (jsKeys a).all (fun key => specDeepEqualFuel n (jsGetKey a key) (jsGetKey b key)) &&
      ((jsKeys b).filter (fun key => !(jsKeys a).contains key)).all
        (fun key => specDeepEqualFuel n (jsGetKey a key) (jsGetKey b key))
    else jsStrictEq a b

def specDeepEqual (a b : JSValue) : Bool :=
  specDeepEqualFuel (jsSize a + jsSize b) a b

/-- Specification-side notion used by claims C1 and C2: the priority of
the highest-priority error of a log, a missing priority counting as 0
(and 0 for an empty log). -/
def specLogHighestPriority (log : KErrorLog) : ℤ :=
  match log.errors with
  | [] => 0
  | e :: rest => rest.foldl (fun m error => max m (error.priority.getD 0)) (e.priority.getD 0)

/-- Specification-side notion used by claim C6: a key that reads as a
base-10 integer index is a non-empty string of decimal digits. -/
def isBase10IntegerNumeral (s : String) : Bool :=
  !(s.data.isEmpty) && s.data.all Char.isDigit


/-- The error log refuting claim C2 as stated: a single error whose
priority is negative. -/
def c2NegativeLog : KErrorLog :=
  { errors := [{ keyword := some "k", value := none, target := JSValue.null,
                 priority := some (-5), coerce := none }] }

/-- The error log used by the witness of the amended claim C2. -/
def c2WitnessLog : KErrorLog :=
  { errors := [{ keyword := some "a", value := none, target := JSValue.null,
                 priority := some 3, coerce := none },
               { keyword := some "b", value := none, target := JSValue.null,
                 priority := none, coerce := none }] }

/-- Branch errors used to exhibit the fork selection behavior: a branch
whose single error has priority 10, and a branch whose errors have
priorities 50 then 0. -/
def c1Err10 : KeywordError :=
  { keyword := some "k1", value := none, target := JSValue.null, priority := some 10,
    coerce := none }

def c1Err50 : KeywordError :=
  { keyword := some "k2", value := none, target := JSValue.null, priority := some 50,
    coerce := none }

def c1Err0 : KeywordError :=
  { keyword := some "k3", value := none, target := JSValue.null, priority := some 0,
    coerce := none }

def c1Log1 : KErrorLog := { errors := [c1Err10] }

def c1Log2 : KErrorLog := { errors := [c1Err50, c1Err0] }

def c1Branch1 : Constraint := { validate := fun _ => c1Log1, coerce := none }

def c1Branch2 : Constraint := { validate := fun _ => c1Log2, coerce := none }

/-- The configured constant, the structurally equal but distinct target,
and the schema used to refute claim C3. -/
def c3Constant : JSValue := JSValue.obj 0 [("x", JSValue.num 1)]

def c3Target : JSValue := JSValue.obj 1 [("x", JSValue.num 1)]

def c3Schema : JSValue := JSValue.obj 2 [("const", c3Constant)]

/-- Rules and enforcers used to witness claim C7: a passing rule, a
failing rule, then another passing rule. -/
def c7FailLog : KErrorLog :=
  { errors := [{ keyword := some "w", value := none, target := JSValue.null,
                 priority := some 1, coerce := none }] }

def c7PassEnforcer : Constraint := { validate := fun _ => { errors := [] }, coerce := none }

def c7FailEnforcer : Constraint := { validate := fun _ => c7FailLog, coerce := none }

def c7Rules : List KeywordRuleM :=
  [{ keyword := "p", getEnforcerFor := fun _ => some c7PassEnforcer },
   { keyword := "f", getEnforcerFor := fun _ => some c7FailEnforcer },
   { keyword := "q", getEnforcerFor := fun _ => some c7PassEnforcer }]

/-- The schema used to witness claim C8: a oneOf list holding a boolean,
an array (to be filtered out) and an object. -/
def c8WitnessSchema : JSValue :=
  JSValue.obj 0
    [("oneOf", JSValue.arr 1
      [JSValue.bool true, JSValue.arr 2 [], JSValue.obj 3 [("type", JSValue.str "string")]])]

/-! Bridge lemmas: the kernel-reducible rational helpers agree with the
field operations of ℚ. -/

theorem ratDiv_eq (a b : ℚ) : ratDiv a b = a / b := (Rat.div_def' a b).symm

theorem ratMul_eq (a b : ℚ) : ratMul a b = a * b := by
  rw [ratMul]
  conv_rhs => rw [← Rat.num_divInt_den a, ← Rat.num_divInt_den b]
  rw [Rat.divInt_mul_divInt']

theorem ratAdd_eq (a b : ℚ) : ratAdd a b = a + b := by
  rw [ratAdd]
  conv_rhs => rw [← Rat.num_divInt_den a, ← Rat.num_divInt_den b]
  rw [Rat.divInt_add_divInt _ _ (by exact_mod_cast a.den_ne_zero) (by exact_mod_cast b.den_ne_zero)]

theorem jsRound_eq (x : ℚ) : jsRound x = ((⌊x + 1 / 2⌋ : ℤ) : ℚ) := by
  rw [jsRound, ratAdd_eq, Rat.mkRat_eq_div]
  norm_num

theorem jsRound_intCast (n : ℤ) : jsRound ((n : ℤ) : ℚ) = ((n : ℤ) : ℚ) := by
  have h : ⌊(1 / 2 : ℚ)⌋ = 0 := by
    rw [Int.floor_eq_iff]
    norm_num
  rw [jsRound_eq, add_comm, Int.floor_add_int, h, zero_add]

theorem numberCoerce_num (d : Option ℚ) (vp : Option String) (x : ℚ) :
    numberCoerce d vp (JSValue.num x) = x := by
  cases vp <;> rfl

theorem steppedNumberCoerce_num (d : Option ℚ) (s : ℚ) (vp : Option String) (x : ℚ)
    (hs : s ≠ 0) :
    steppedNumberCoerce d s vp (JSValue.num x) = ratMul (jsRound (ratDiv x s)) s := by
  rw [steppedNumberCoerce, numberCoerce_num, if_pos hs]

/-- Claim C5: for every SteppedNumberEnforcer with nonzero step and
every numeric input, coercion is idempotent: coercing the coerced number
returns it unchanged. -/
theorem c5_stepped_coercion_idempotent (d : Option ℚ) (s : ℚ) (vp : Option String) (q : ℚ)
    (hs : s ≠ 0) :
    steppedNumberCoerce d s vp (JSValue.num (steppedNumberCoerce d s vp (JSValue.num q))) =
      steppedNumberCoerce d s vp (JSValue.num q) := by
  rw [steppedNumberCoerce_num d s vp q hs,
    steppedNumberCoerce_num d s vp (ratMul (jsRound (ratDiv q s)) s) hs]
  simp only [ratMul_eq, ratDiv_eq]
  rw [mul_div_cancel_right₀ _ hs, jsRound_eq (q / s), jsRound_intCast]

/-- Witness for claim C5 at default 0, step 2, input 3 (both coercions
evaluate to 4). -/
theorem c5_stepped_coercion_idempotent_witness :
    (2 : ℚ) ≠ 0 ∧
      steppedNumberCoerce none 2 none
          (JSValue.num (steppedNumberCoerce none 2 none (JSValue.num 3))) =
        steppedNumberCoerce none 2 none (JSValue.num 3) :=
  ⟨by norm_num, c5_stepped_coercion_idempotent none 2 none 3 (by norm_num)⟩

/-- Helper: the priority-scan loop of the keyword rating computes a
clamped maximum: starting from a nonnegative accumulator it agrees with
folding max over the priorities, missing priorities read as 0. -/
theorem keywordRateFold (es : List KeywordError) (m : ℤ) (hm : 0 ≤ m) :
    es.foldl (fun maxErrorPriority error =>
        match error.priority with
        | some p => if p > maxErrorPriority then p else maxErrorPriority
        | none => maxErrorPriority) m =
      (es.map (fun e => e.priority.getD 0)).foldl (fun acc p => max acc p) m := by
  induction es generalizing m with
  | nil => rfl
  | cons e es ih =>
    simp only [List.foldl_cons, List.map_cons]
    have hstep :
        (match e.priority with
          | some p => if p > m then p else m
          | none => m) = max m (e.priority.getD 0) := by
      cases hp : e.priority with
      | none => simp [max_eq_left hm]
      | some p =>
        simp only [Option.getD_some]
        rcases lt_or_le m p with h | h
        · rw [if_pos h, max_eq_right h.le]
        · rw [if_neg (not_lt.mpr h), max_eq_left h]
    rw [hstep, ih (max m (e.priority.getD 0)) (le_trans hm (le_max_left _ _))]

/-- Claim C2 (amended): rateValidity returns 1 for an error log with no
errors; for a log with at least one error it returns the negation of the
maximum of 0 and the priorities occurring among the errors (a missing
priority counting as 0) - so when every priority is negative the rating
is 0, not the negation of the highest (negative) priority. -/
theorem c2_keyword_rate_validity :
    (∀ log : KErrorLog, log.errors = [] → keywordRateValidity log = 1) ∧
    (∀ log : KErrorLog, log.errors ≠ [] →
      keywordRateValidity log =
        -((log.errors.map (fun e => e.priority.getD 0)).foldl (fun acc p => max acc p) 0)) := by
  constructor
  · intro log h
    rw [keywordRateValidity, if_neg (by simp [h])]
  · intro log h
    rw [keywordRateValidity, if_pos (List.length_pos.mpr h),
      keywordRateFold log.errors 0 le_rfl]

/-- Counterexample to claim C2 as stated: on a log whose only error has
priority -5, rateValidity returns 0, not the negation of the highest
occurring priority (which would be 5). -/
theorem c2_keyword_rate_validity_counterexample :
    keywordRateValidity c2NegativeLog = 0 ∧
    specLogHighestPriority c2NegativeLog = -5 ∧
    keywordRateValidity c2NegativeLog ≠ -(specLogHighestPriority c2NegativeLog) := by
  refine ⟨by decide, by decide, by decide⟩

/-- Witness for the amended claim C2: the empty log rates 1, and a log
with priorities 3 and missing rates -3. -/
theorem c2_keyword_rate_validity_witness :
    (({ errors := [] } : KErrorLog).errors = []) ∧
    keywordRateValidity { errors := [] } = 1 ∧
    c2WitnessLog.errors ≠ [] ∧
    keywordRateValidity c2WitnessLog = -3 := by
  have he : (({ errors := [] } : KErrorLog)).errors = [] := rfl
  have hn : c2WitnessLog.errors ≠ [] := by simp [c2WitnessLog]
  exact ⟨he, c2_keyword_rate_validity.1 _ he, hn,
    by rw [c2_keyword_rate_validity.2 c2WitnessLog hn]; decide⟩

/-- Claim C4 at the failing input: the string enforcer with no default
coerces undefined to undefined (JSON.stringify of undefined), which its
own validate rejects; the sentinel number facts of the claim do hold. -/
theorem c4_string_coercion_not_validating :
    stringCoerce none none JSValue.undef = JSValue.undef ∧
    stringValidate (stringCoerce none none JSValue.undef) = false ∧
    numberCoerce none none (JSValue.str "abc") = 0 ∧
    numberValidate (JSValue.num (numberCoerce none none (JSValue.str "abc"))) = true := by
  exact ⟨rfl, rfl, by decide, rfl⟩

/-- Claim C1 at the failing input: getHighestPriorityError returns the
last error of the log (priority 0), not its highest-priority error
(priority 50), so the fork over the two branches returns the second
branch's log even though the first branch's highest-priority error has
the strictly lower priority (10 against 50) - the claim, which selects
by highest-priority error, demands the first branch's log. -/
theorem c1_fork_selects_by_last_error_priority :
    getHighestPriorityError [c1Err50, c1Err0] = some c1Err0 ∧
    c1Err50.priority = some 50 ∧
    c1Err0.priority = some 0 ∧
    forkValidate [c1Branch1, c1Branch2] JSValue.null = c1Log2 ∧
    specLogHighestPriority c1Log1 = 10 ∧
    specLogHighestPriority c1Log2 = 50 ∧
    (10 : ℤ) < 50 ∧
    c1Log2.errors.length = 2 ∧
    c1Log1.errors.length = 1 := by
  exact ⟨rfl, rfl, rfl, rfl, by decide, by decide, by decide, rfl, rfl⟩

/-- Claim C3 at the failing input: the target is deep-equal to the
constant in the sense of the spec, yet isEquivalentTo rejects it (the
function falls through to reference equality even for objects), so the
const enforcer reports one error (priority 150) instead of an empty log. -/
theorem c3_const_rejects_deep_equal_object :
    specDeepEqual c3Target c3Constant = true ∧
    isEquivalentTo c3Target c3Constant = false ∧
    ((jsonSchemaConstRuleGetEnforcerFor c3Schema).map
        (fun e => (e.validate c3Target).errors.map (fun err => (err.keyword, err.priority)))) =
      some [(some "const", some 150)] := by
  exact ⟨by decide, by decide, rfl⟩

/-- Helper: when every step validates, the merge loop falls through to
the canonical valid value. -/
theorem mergeValidateStepsGo_all_valid {V : Type} (parser : ValidationParser V) (v : JSValue)
    (steps : List (JSValue → V)) (h : ∀ t ∈ steps, parser.isValid (t v) = true) :
    mergeValidateStepsGo parser v steps = parser.getValid := by
  induction steps with
  | nil => rfl
  | cons s rest ih =>
    have hs := h s (List.mem_cons_self s rest)
    have ih2 := ih (fun t ht => h t (List.mem_cons_of_mem s ht))
    simp [mergeValidateStepsGo, hs, ih2]

/-- Helper: the merge loop returns the result of the first invalid step,
unchanged, whatever follows it. -/
theorem mergeValidateStepsGo_first_invalid {V : Type} (parser : ValidationParser V)
    (v : JSValue) (pre post : List (JSValue → V)) (s : JSValue → V)
    (hpre : ∀ t ∈ pre, parser.isValid (t v) = true) (hs : parser.isValid (s v) = false) :
    mergeValidateStepsGo parser v (pre ++ s :: post) = s v := by
  induction pre with
  | nil => simp [mergeValidateStepsGo, hs]
  | cons p rest ih =>
    have hp := hpre p (List.mem_cons_self p rest)
    have ih2 := ih (fun t ht => hpre t (List.mem_cons_of_mem p ht))
    simp [mergeValidateStepsGo, hp, ih2]

/-- Helper: the valid steps of a mapped prefix of applicable enforcers. -/
theorem errorLog_isValid_of_empty (l : KErrorLog) (h : l.errors = []) :
    errorLogValidationParser.isValid l = true := by
  simp [errorLogValidationParser, h]

theorem errorLog_isValid_of_nonempty (l : KErrorLog) (h : l.errors ≠ []) :
    errorLogValidationParser.isValid l = false := by
  simp [errorLogValidationParser, Nat.lt_one_iff, List.length_eq_zero, h]

/-- Claim C7: mergeValidateSteps runs its steps in order and returns the
result of the first step the parser deems invalid; when every step
passes it returns the parser's canonical valid value; hence the
composite validation built by the sequential keyword factory returns the
first failing applicable rule's result in rule-registration order, and
an empty error log when every applicable rule passes. -/
theorem c7_merge_validate_first_failure_governs :
    (∀ (V : Type) (parser : ValidationParser V) (v : JSValue)
        (pre post : List (JSValue → V)) (s : JSValue → V),
        (∀ t ∈ pre, parser.isValid (t v) = true) → parser.isValid (s v) = false →
        mergeValidateSteps (pre ++ s :: post) parser v = s v) ∧
    (∀ (V : Type) (parser : ValidationParser V) (v : JSValue) (steps : List (JSValue → V)),
        (∀ t ∈ steps, parser.isValid (t v) = true) →
        mergeValidateSteps steps parser v = parser.getValid) ∧
    (∀ (rules : List KeywordRuleM) (schema : JSValue) (v : JSValue)
        (pre post : List (String × Constraint)) (e : String × Constraint),
        applicableRuleEnforcers rules schema = pre ++ e :: post →
        (∀ f ∈ pre, (f.2.validate v).errors = []) →
        (e.2.validate v).errors ≠ [] →
        (sequentialKeywordEnforcerProcess rules schema).validate v = e.2.validate v) ∧
    (∀ (rules : List KeywordRuleM) (schema : JSValue) (v : JSValue),
        (∀ f ∈ applicableRuleEnforcers rules schema, (f.2.validate v).errors = []) →
        (sequentialKeywordEnforcerProcess rules schema).validate v = { errors := [] }) := by
  refine ⟨?first, ?allv, ?procFirst, ?procAll⟩
  · intro V parser v pre post s hpre hs
    exact mergeValidateStepsGo_first_invalid parser v pre post s hpre hs
  · intro V parser v steps h
    exact mergeValidateStepsGo_all_valid parser v steps h
  · intro rules schema v pre post e happ hpre he
    have hp : ∀ t ∈ pre.map (fun f => f.2.validate),
        errorLogValidationParser.isValid (t v) = true := by
      intro t ht
      obtain ⟨f, hf, hfe⟩ := List.mem_map.mp ht
      subst hfe
      exact errorLog_isValid_of_empty _ (hpre f hf)
    show mergeValidateSteps ((applicableRuleEnforcers rules schema).map (fun f => f.2.validate))
      errorLogValidationParser v = e.2.validate v
    rw [happ, List.map_append, List.map_cons]
    exact mergeValidateStepsGo_first_invalid _ v _ _ _ hp (errorLog_isValid_of_nonempty _ he)
  · intro rules schema v h
    have hp : ∀ t ∈ (applicableRuleEnforcers rules schema).map (fun f => f.2.validate),
        errorLogValidationParser.isValid (t v) = true := by
      intro t ht
      obtain ⟨f, hf, hfe⟩ := List.mem_map.mp ht
      subst hfe
      exact errorLog_isValid_of_empty _ (h f hf)
    show mergeValidateSteps ((applicableRuleEnforcers rules schema).map (fun f => f.2.validate))
      errorLogValidationParser v = { errors := [] }
    exact mergeValidateStepsGo_all_valid _ v _ hp

/-- Witness for claim C7: over the three rules above, the composite
validation returns the failing rule's log. -/
theorem c7_merge_validate_first_failure_governs_witness :
    (sequentialKeywordEnforcerProcess c7Rules (JSValue.obj 0 [])).validate JSValue.null =
      c7FailLog := by
  refine c7_merge_validate_first_failure_governs.2.2.1 c7Rules (JSValue.obj 0 []) JSValue.null
    [("p", c7PassEnforcer)] [("q", c7PassEnforcer)] ("f", c7FailEnforcer) rfl ?hpre ?hne
  · intro f hf
    have h := List.mem_singleton.mp hf
    subst h
    rfl
  · simp [c7FailEnforcer, c7FailLog]

/-- Claim C9: a schema whose type keyword is an empty array, or an array
with no recognized type names, produces a branchless fork whose
validation is an empty error log for every input value. -/
theorem c9_branchless_fork_accepts_everything :
    (∀ v, (jsonSchemaEnforcerFactoryProcess
        (JSValue.obj 0 [("type", JSValue.arr 0 [])])).validate v = { errors := [] }) ∧
    (∀ v, (jsonSchemaEnforcerFactoryProcess
        (JSValue.obj 0 [("type", JSValue.arr 0 [JSValue.str "wibble"])])).validate v =
      { errors := [] }) :=
  ⟨fun _ => rfl, fun _ => rfl⟩

/-- Claim C10: the false schema's enforcer has no coercion at all and
reports one partial error per value; the true schema's enforcer coerces
by identity and validates everything with an empty log. -/
theorem c10_boolean_schema_enforcers :
    (jsonSchemaEnforcerFactoryProcess (JSValue.bool false)).coerce = none ∧
    (jsonSchemaEnforcerFactoryProcess (JSValue.bool true)).coerce = some (fun value => value) ∧
    (∀ v, (jsonSchemaEnforcerFactoryProcess (JSValue.bool true)).validate v = { errors := [] }) ∧
    (∀ v, (jsonSchemaEnforcerFactoryProcess (JSValue.bool false)).validate v =
      { errors := [{ keyword := none, value := none, target := v, priority := none,
                     coerce := none }] }) :=
  ⟨rfl, rfl, fun _ => rfl, fun _ => rfl⟩


/-- Counterexample to claim C6 as stated: the empty string is not a
base-10 integer numeral, so by the claim the key of {'': 'a'} would be
dropped and the coercion would yield an empty array; the code casts the
key with Number (the empty string casts to 0) and yields ['a']. -/
theorem c6_array_coercion_counterexample :
    isBase10IntegerNumeral "" = false ∧
    strToNumber "" = some 0 ∧
    arrayCoerce none none (JSValue.obj 1 [("", JSValue.str "a")]) =
      JSValue.arr 0 [JSValue.str "a"] ∧
    JSValue.arr 0 [JSValue.str "a"] ≠ JSValue.arr 0 [] := by
  refine ⟨rfl, by decide, rfl, by simp⟩

/-- Claim C6 (amended): ArrayEnforcer.coerce on a non-null non-array
object rebuilds an array by casting each own key with the JS Number
conversion; keys whose cast is NaN contribute nothing, keys casting to a
nonnegative integer assign the element at that index (gaps left
undefined), and keys casting to a negative or fractional number
contribute no element; the concrete examples of the claim hold, and the
empty-string key (Number cast 0) lands at index 0 instead of being
dropped. -/
theorem c6_array_coercion_number_cast_indexing :
    arrayCoerce none none (JSValue.obj 1 [("0", JSValue.str "a"), ("2", JSValue.str "c")]) =
      JSValue.arr 0 [JSValue.str "a", JSValue.undef, JSValue.str "c"] ∧
    arrayCoerce none none (JSValue.str "[1]") = JSValue.arr 0 [JSValue.num 1] ∧
    arrayCoerce none none (JSValue.str "z") = JSValue.arr 0 [JSValue.str "z"] ∧
    arrayCoerce none none (JSValue.obj 1 [("", JSValue.str "a")]) =
      JSValue.arr 0 [JSValue.str "a"] ∧
    (∀ (dv : Option (List JSValue)) (r : ℕ) (fields : List (String × JSValue)) (k : String)
        (v : JSValue), strToNumber k = none →
        arrayCoerce dv none (JSValue.obj r (fields ++ [(k, v)])) =
          arrayCoerce dv none (JSValue.obj r fields)) ∧
    (∀ (dv : Option (List JSValue)) (r : ℕ) (fields : List (String × JSValue)) (k : String)
        (v : JSValue) (q : ℚ), strToNumber k = some q → ¬(q.den = 1 ∧ 0 ≤ q.num) →
        arrayCoerce dv none (JSValue.obj r (fields ++ [(k, v)])) =
          arrayCoerce dv none (JSValue.obj r fields)) := by
  refine ⟨rfl, rfl, rfl, rfl, ?nan, ?nonIndex⟩
  · intro dv r fields k v h
    show JSValue.arr 0 (objToArrayElems (fields ++ [(k, v)])) =
      JSValue.arr 0 (objToArrayElems fields)
    simp only [objToArrayElems, List.foldl_append, List.foldl_cons, List.foldl_nil, h]
  · intro dv r fields k v q h h2
    show JSValue.arr 0 (objToArrayElems (fields ++ [(k, v)])) =
      JSValue.arr 0 (objToArrayElems fields)
    simp only [objToArrayElems, List.foldl_append, List.foldl_cons, List.foldl_nil, h,
      jsArraySet, if_neg h2]

/-- Witness for the amended claim C6: a NaN key (a) and a negative key
(-2) leave the rebuilt array unchanged. -/
theorem c6_array_coercion_number_cast_indexing_witness :
    strToNumber "a" = none ∧
    arrayCoerce none none (JSValue.obj 3 [("0", JSValue.num 7), ("a", JSValue.num 8)]) =
      arrayCoerce none none (JSValue.obj 3 [("0", JSValue.num 7)]) ∧
    strToNumber "-2" = some (-2) ∧
    ¬((-2 : ℚ).den = 1 ∧ 0 ≤ (-2 : ℚ).num) ∧
    arrayCoerce none none (JSValue.obj 3 [("0", JSValue.num 7), ("-2", JSValue.num 8)]) =
      arrayCoerce none none (JSValue.obj 3 [("0", JSValue.num 7)]) :=
  ⟨by decide,
   c6_array_coercion_number_cast_indexing.2.2.2.2.1 none 3 [("0", JSValue.num 7)] "a"
     (JSValue.num 8) (by decide),
   by decide, by decide,
   c6_array_coercion_number_cast_indexing.2.2.2.2.2 none 3 [("0", JSValue.num 7)] "-2"
     (JSValue.num 8) (-2) (by decide) (by decide)⟩

/-- Claim C8: the default splitter decomposes a schema object with the
precedence enum, then oneOf, then anyOf, then a multi-valued type array,
then the schema itself; subschema arrays are filtered to booleans and
non-array objects, type arrays keep their string entries; and the
options built for enum ['a', 1] are labeled a and 1. -/
theorem c8_splitter_decomposition :
    (∀ (r r2 : ℕ) (fields : List (String × JSValue)) (vs : List JSValue),
        jsGetKey (JSValue.obj r fields) "enum" = JSValue.arr r2 vs →
        jsonSchemaSplitterDefault (JSValue.obj r fields) =
          vs.map (fun v => JSValue.obj 0 [("const", v)])) ∧
    (∀ (r r2 : ℕ) (fields : List (String × JSValue)) (items : List JSValue),
        isJSArrayB (jsGetKey (JSValue.obj r fields) "enum") = false →
        jsGetKey (JSValue.obj r fields) "oneOf" = JSValue.arr r2 items →
        jsonSchemaSplitterDefault (JSValue.obj r fields) = items.filter isFlagOrObject) ∧
    (∀ (r r2 : ℕ) (fields : List (String × JSValue)) (items : List JSValue),
        isJSArrayB (jsGetKey (JSValue.obj r fields) "enum") = false →
        isJSArrayB (jsGetKey (JSValue.obj r fields) "oneOf") = false →
        jsGetKey (JSValue.obj r fields) "anyOf" = JSValue.arr r2 items →
        jsonSchemaSplitterDefault (JSValue.obj r fields) = items.filter isFlagOrObject) ∧
    (∀ (r r2 : ℕ) (fields : List (String × JSValue)) (ts : List JSValue),
        isJSArrayB (jsGetKey (JSValue.obj r fields) "enum") = false →
        isJSArrayB (jsGetKey (JSValue.obj r fields) "oneOf") = false →
        isJSArrayB (jsGetKey (JSValue.obj r fields) "anyOf") = false →
        jsGetKey (JSValue.obj r fields) "type" = JSValue.arr r2 ts →
        jsonSchemaSplitterDefault (JSValue.obj r fields) =
          (ts.filterMap (fun item =>
            match item with
            | JSValue.str s => some s
            | _ => none)).map (fun t => JSValue.obj 0 [("type", JSValue.str t)])) ∧
    (∀ (r : ℕ) (fields : List (String × JSValue)),
        isJSArrayB (jsGetKey (JSValue.obj r fields) "enum") = false →
        isJSArrayB (jsGetKey (JSValue.obj r fields) "oneOf") = false →
        isJSArrayB (jsGetKey (JSValue.obj r fields) "anyOf") = false →
        isJSArrayB (jsGetKey (JSValue.obj r fields) "type") = false →
        jsonSchemaSplitterDefault (JSValue.obj r fields) = [JSValue.obj r fields]) ∧
    ((jsonSchemaOptionsFactoryProcess
        (JSValue.obj 0 [("enum", JSValue.arr 0 [JSValue.str "a", JSValue.num 1])])).map
      (fun o => o.label) = ["a", "1"]) := by
  refine ⟨?henum, ?honeOf, ?hanyOf, ?htype, ?hself, rfl⟩
  · intro r r2 fields vs h
    have et : isJSArrayB (JSValue.arr r2 vs) = true := rfl
    simp [jsonSchemaSplitterDefault, jsonSchemaSplitterProcess, h, et, arrayItems]
  · intro r r2 fields items h1 h2
    have et : isJSArrayB (JSValue.arr r2 items) = true := rfl
    simp [jsonSchemaSplitterDefault, jsonSchemaSplitterProcess, h1, h2, et, arrayItems,
      List.findSome?_cons]
  · intro r r2 fields items h1 h2 h3
    have et : isJSArrayB (JSValue.arr r2 items) = true := rfl
    simp [jsonSchemaSplitterDefault, jsonSchemaSplitterProcess, h1, h2, h3, et, arrayItems,
      List.findSome?_cons]
  · intro r r2 fields ts h1 h2 h3 h4
    have et : isJSArrayB (JSValue.arr r2 ts) = true := rfl
    simp [jsonSchemaSplitterDefault, jsonSchemaSplitterProcess, h1, h2, h3, h4, et, arrayItems,
      List.findSome?_cons]
  · intro r fields h1 h2 h3 h4
    simp [jsonSchemaSplitterDefault, jsonSchemaSplitterProcess, h1, h2, h3, h4,
      List.findSome?_cons]

/-- Witness for claim C8: the splitter keeps the boolean and the object
of the oneOf list and drops the array entry. -/
theorem c8_splitter_decomposition_witness :
    jsonSchemaSplitterDefault c8WitnessSchema =
      [JSValue.bool true, JSValue.obj 3 [("type", JSValue.str "string")]] := by
  have h := c8_splitter_decomposition.2.1 0 1
    [("oneOf", JSValue.arr 1
      [JSValue.bool true, JSValue.arr 2 [], JSValue.obj 3 [("type", JSValue.str "string")]])]
    [JSValue.bool true, JSValue.arr 2 [], JSValue.obj 3 [("type", JSValue.str "string")]]
    rfl rfl
  rw [show c8WitnessSchema = JSValue.obj 0
    [("oneOf", JSValue.arr 1
      [JSValue.bool true, JSValue.arr 2 [], JSValue.obj 3 [("type", JSValue.str "string")]])]
    from rfl, h]
  rfl
